import Mathlib

/-!
Shallow embedding of the ferro audio-visual pipeline.

Numeric values are modelled as rationals (the source uses JS numbers with
exact decimal constants such as 0.5, 1.2, 1.5); the spike-direction
geometry, which involves sin/cos of pi/6, is modelled over the reals.
Strings (colors, mood tags, tween keys) are modelled as Lean strings.
-/

namespace Ferro

/-- clamp to an interval, written exactly as the source writes it:
Math.max(lo, Math.min(hi, x)). -/
def clampQ (lo hi x : ℚ) : ℚ := max lo (min hi x)

/- ## WorldTarget (src/unnamed/part_001) -/

inductive RenderMode where
  | meshOnly
  | full
deriving DecidableEq, Repr

inductive Mood where
  | calm
  | flow
  | pulse
  | wild
deriving DecidableEq, Repr

inductive BgStyle where
  | softGradient
  | mist
  | deepSpace
  | glowField
deriving DecidableEq, Repr

/-- The `ferro` mesh-parameter group of a WorldTarget. -/
structure FerroParams where
  baseColor : String
  accentColor : Option String
  saturation : ℚ
  roughness : ℚ
  metalness : ℚ
  envIntensity : ℚ
  deformStrength : ℚ
  deformScale : ℚ
  deformSpeed : ℚ
  swayAmount : ℚ
  swaySpeed : ℚ
  pulseAmount : ℚ
  gravityStrength : ℚ
  attractStrength : ℚ
deriving DecidableEq, Repr

/-- The `background` parameter group of a WorldTarget. -/
structure BackgroundParams where
  bgStyle : BgStyle
  bgGradientA : String
  bgGradientB : String
  bgNoiseAmount : ℚ
  bgFogDensity : ℚ
  bgVignette : ℚ
  bgMotion : ℚ
  bloomIntensity : ℚ
  grainAmount : ℚ
deriving DecidableEq, Repr

/-- WorldTarget; `reflection` is an opaque optional payload at this
boundary, modelled as an optional string. -/
structure WorldTarget where
  version : String
  renderMode : RenderMode
  mood : Mood
  transitionSeconds : ℚ
  reflection : Option String
  ferro : FerroParams
  background : BackgroundParams
deriving DecidableEq, Repr

/-- clampWorldTarget from src/unnamed/part_001: spreads the input and
overwrites only transitionSeconds and the listed numeric fields with
range-clamped values; bloomIntensity and grainAmount get tighter bounds
when renderMode is meshOnly. -/
def clampWorldTarget (t : WorldTarget) : WorldTarget :=
  { t with
    transitionSeconds := clampQ 5 20 t.transitionSeconds,
    ferro := { t.ferro with
      saturation := clampQ 0 (7/10) t.ferro.saturation,
      roughness := clampQ 0 1 t.ferro.roughness,
      metalness := clampQ 0 1 t.ferro.metalness,
      envIntensity := clampQ 0 2 t.ferro.envIntensity,
      deformStrength := clampQ 0 1 t.ferro.deformStrength,
      deformScale := clampQ (1/2) 3 t.ferro.deformScale,
      deformSpeed := clampQ 0 2 t.ferro.deformSpeed,
      swayAmount := clampQ 0 1 t.ferro.swayAmount,
      swaySpeed := clampQ 0 (3/2) t.ferro.swaySpeed,
      pulseAmount := clampQ 0 1 t.ferro.pulseAmount,
      gravityStrength := clampQ 0 1 t.ferro.gravityStrength,
      attractStrength := clampQ 0 1 t.ferro.attractStrength },
    background := { t.background with
      bgNoiseAmount := clampQ 0 (1/4) t.background.bgNoiseAmount,
      bgFogDensity := clampQ 0 (4/5) t.background.bgFogDensity,
      bgVignette := clampQ 0 (4/5) t.background.bgVignette,
      bgMotion := clampQ 0 1 t.background.bgMotion,
      bloomIntensity :=
        if t.renderMode = RenderMode.meshOnly then
          clampQ 0 (1/2) t.background.bloomIntensity
        else
          clampQ 0 (6/5) t.background.bloomIntensity,
      grainAmount :=
        if t.renderMode = RenderMode.meshOnly then
          clampQ 0 (3/20) t.background.grainAmount
        else
          clampQ 0 (7/20) t.background.grainAmount } }

lemma clampQ_idem (lo hi x : ℚ) :
    clampQ lo hi (clampQ lo hi x) = clampQ lo hi x := by
  unfold clampQ
  rcases le_total (min hi x) lo with h1 | h1
  · rw [max_eq_left h1]
    rcases le_total lo hi with h2 | h2
    · rw [min_eq_right h2, max_self]
    · rw [min_eq_left h2, max_eq_left h2]
  · rw [max_eq_right h1, min_eq_right (min_le_left hi x), max_eq_right h1]

/- ## TransitionEngine (src/lib/state/TransitionEngine.ts) -/

/-- WorldState: the live mirror of a WorldTarget's groups. -/
structure WorldState where
  renderMode : RenderMode
  mood : Mood
  ferro : FerroParams
  background : BackgroundParams
deriving DecidableEq, Repr

/-- The value a tween animates toward: a numeric field target, or an
RGB color target produced by hexToRgb. -/
inductive TweenTarget where
  | num (v : ℚ)
  | color (r g b : ℕ)
deriving DecidableEq, Repr

/-- One GSAP tween as registered in activeTweens: its map key (field
path), its target value, its duration and its easing string. -/
structure Tween where
  key : String
  target : TweenTarget
  duration : ℚ
  ease : String
deriving DecidableEq, Repr

/-- Mood classification at the top of transitionTo: returns
(actualDuration, ease). wild→calm slows to clamp(d*1.5, 12, 20) with
"power1.out"; →wild keeps d with "power2.out"; else d with
"power2.inOut". -/
def moodTiming (prev tgt : Mood) (d : ℚ) : ℚ × String :=
  if prev = Mood.wild ∧ tgt = Mood.calm then
    (max 12 (min 20 (d * (3/2))), "power1.out")
  else if tgt = Mood.wild then (d, "power2.out")
  else (d, "power2.inOut")

/-- Value of one hex digit, matching the case-insensitive character
class [a-f\d] of the hexToRgb regex. -/
def hexDigitVal (c : Char) : Option ℕ :=
  if '0' ≤ c ∧ c ≤ '9' then some (c.toNat - Char.toNat '0')
  else if 'a' ≤ c ∧ c ≤ 'f' then some (c.toNat - Char.toNat 'a' + 10)
  else if 'A' ≤ c ∧ c ≤ 'F' then some (c.toNat - Char.toNat 'A' + 10)
  else none

/-- hexToRgb: the anchored regex ^#?([a-f\d]{2})([a-f\d]{2})([a-f\d]{2})$
with the i flag — an optional leading '#', then exactly six hex digits. -/
def hexToRgb (s : String) : Option (ℕ × ℕ × ℕ) :=
  let cs :=
    match s.toList with
    | '#' :: rest => rest
    | l => l
  match cs with
  | [a, b, c, d, e, f] =>
    match hexDigitVal a, hexDigitVal b, hexDigitVal c,
          hexDigitVal d, hexDigitVal e, hexDigitVal f with
    | some va, some vb, some vc, some vd, some ve, some vf =>
        some (16 * va + vb, 16 * vc + vd, 16 * ve + vf)
    | _, _, _, _, _, _ => none
  | _ => none

/-- JS `a || b` on an optional string: undefined and "" are falsy. -/
def jsOrStr (a : Option String) (b : String) : String :=
  match a with
  | some s => if s = "" then b else s
  | none => b

/-- transitionColor: skipped when the two colors are equal as strings or
when either fails to parse; otherwise registers a tween toward the
parsed target color. -/
def colorTween (k fromC toC : String) (dur : ℚ) (ease : String) :
    Option Tween :=
  if fromC = toC then none
  else
    match hexToRgb fromC, hexToRgb toC with
    | some _, some (r, g, b) => some ⟨k, TweenTarget.color r g b, dur, ease⟩
    | _, _ => none

/-- The accentColor branch: a tween only when the target's accentColor
is truthy (present and non-empty), from the current accentColor falling
back to the current baseColor. -/
def accentTween (k : String) (st : WorldState) (fDur : ℚ) (ease : String) :
    Option String → Option Tween
  | some c =>
      if c = "" then none
      else colorTween k (jsOrStr st.ferro.accentColor st.ferro.baseColor)
        c fDur ease
  | none => none

/-- transitionFerroParams: the activeTweens.set calls it performs, in
source order — baseColor, accentColor (when truthy), then the twelve
numeric mesh parameters, all over the same duration and easing. -/
def transitionFerroParams (st : WorldState) (tf : FerroParams)
    (dur : ℚ) (ease : String) : List Tween :=
  (colorTween "ferro.baseColor" st.ferro.baseColor tf.baseColor
    dur ease).toList ++
  ((accentTween "ferro.accentColor" st dur ease tf.accentColor).toList ++
  [ ⟨ "ferro.saturation", TweenTarget.num tf.saturation, dur, ease⟩,
    ⟨ "ferro.roughness", TweenTarget.num tf.roughness, dur, ease⟩,
    ⟨ "ferro.metalness", TweenTarget.num tf.metalness, dur, ease⟩,
    ⟨ "ferro.envIntensity", TweenTarget.num tf.envIntensity, dur, ease⟩,
    ⟨ "ferro.deformStrength", TweenTarget.num tf.deformStrength, dur, ease⟩,
    ⟨ "ferro.deformScale", TweenTarget.num tf.deformScale, dur, ease⟩,
    ⟨ "ferro.deformSpeed", TweenTarget.num tf.deformSpeed, dur, ease⟩,
    ⟨ "ferro.swayAmount", TweenTarget.num tf.swayAmount, dur, ease⟩,
    ⟨ "ferro.swaySpeed", TweenTarget.num tf.swaySpeed, dur, ease⟩,
    ⟨ "ferro.pulseAmount", TweenTarget.num tf.pulseAmount, dur, ease⟩,
    ⟨ "ferro.gravityStrength", TweenTarget.num tf.gravityStrength,
      dur, ease⟩,
    ⟨ "ferro.attractStrength", TweenTarget.num tf.attractStrength,
      dur, ease⟩ ])

/-- transitionBackgroundParams: the activeTweens.set calls it performs —
the two gradient colors, then the six numeric background parameters;
bgFogDensity and bloomIntensity use fogDuration = max(8, duration),
the rest the given duration. -/
def transitionBackgroundParams (st : WorldState) (tb : BackgroundParams)
    (dur : ℚ) (ease : String) : List Tween :=
  let fogDuration := max 8 dur
  (colorTween "background.bgGradientA" st.background.bgGradientA
    tb.bgGradientA dur ease).toList ++
  ((colorTween "background.bgGradientB" st.background.bgGradientB
    tb.bgGradientB dur ease).toList ++
  [ ⟨ "background.bgNoiseAmount", TweenTarget.num tb.bgNoiseAmount,
      dur, ease⟩,
    ⟨ "background.bgFogDensity", TweenTarget.num tb.bgFogDensity,
      fogDuration, ease⟩,
    ⟨ "background.bgVignette", TweenTarget.num tb.bgVignette, dur, ease⟩,
    ⟨ "background.bgMotion", TweenTarget.num tb.bgMotion, dur, ease⟩,
    ⟨ "background.bloomIntensity", TweenTarget.num tb.bloomIntensity,
      fogDuration, ease⟩,
    ⟨ "background.grainAmount", TweenTarget.num tb.grainAmount,
      dur, ease⟩ ])

/-- JS Map.set on the insertion-ordered association list of tweens:
an existing key is overwritten in place, a new key is appended. -/
def mapSet : List Tween → Tween → List Tween
  | [], tw => [tw]
  | a :: rest, tw =>
      if a.key = tw.key then tw :: rest else a :: mapSet rest tw

/-- TransitionEngine instance state: currentState plus activeTweens. -/
structure EngineState where
  current : WorldState
  activeTweens : List Tween
deriving DecidableEq, Repr

/-- transitionTo: kills and clears every active tween, classifies the
mood transition, registers ferro tweens over actualDuration and
background tweens over actualDuration*1.2 (fog/bloom floored at 8),
and writes renderMode, mood and bgStyle immediately. -/
def transitionTo (s : EngineState) (t : WorldTarget) : EngineState :=
  let cleared : List Tween := []
  let td := moodTiming s.current.mood t.mood t.transitionSeconds
  let actual := td.1
  let ease := td.2
  let bgDur := actual * (6/5)
  let pushes := transitionFerroParams s.current t.ferro actual ease ++
    transitionBackgroundParams s.current t.background bgDur ease
  { current := { s.current with
      renderMode := t.renderMode,
      mood := t.mood,
      background := { s.current.background with
        bgStyle := t.background.bgStyle } },
    activeTweens := pushes.foldl mapSet cleared }

/-- killAll: cancels every in-flight tween, changing no current value. -/
def killAll (s : EngineState) : EngineState := { s with activeTweens := [] }

/- ## AnimationPlan and the intent resolver (src/unnamed/part_011) -/

structure AnimationSection where
  name : String
  startTime : ℚ
  endTime : ℚ
  energy : ℚ
  tension : ℚ
  motionStyle : String
  spikeAmount : ℚ
  noiseAmount : ℚ
  colorPalette : List String
deriving DecidableEq, Repr

structure PlanGlobal where
  baseEnergy : ℚ
  baseTension : ℚ
  colorPalette : List String
deriving DecidableEq, Repr

structure AnimationPlan where
  overallMood : String
  global : PlanGlobal
  sections : List AnimationSection
deriving DecidableEq, Repr

/-- The parameter set handed from the resolver to makeRoughBall. -/
structure AIParams where
  energy : ℚ
  tension : ℚ
  spikeAmount : ℚ
  noiseAmount : ℚ
  motionStyle : String
deriving DecidableEq, Repr

/-- sections.find of the render loop: a non-last section matches when
startTime ≤ t < endTime; the last section (index = length-1) matches
startTime ≤ t ≤ endTime. -/
def findSection : List AnimationSection → ℚ → Option AnimationSection
  | [], _ => none
  | [s], t => if s.startTime ≤ t ∧ t ≤ s.endTime then some s else none
  | s :: s2 :: rest, t =>
      if s.startTime ≤ t ∧ t < s.endTime then some s
      else findSection (s2 :: rest) t

/-- The resolved parameters at time t: the matching section's values,
else the plan's global block with spikeAmount 0, noiseAmount 1.0 and
motionStyle "default". -/
def resolveIntent (plan : AnimationPlan) (t : ℚ) : AIParams :=
  match findSection plan.sections t with
  | some s => ⟨s.energy, s.tension, s.spikeAmount, s.noiseAmount, s.motionStyle⟩
  | none =>
      ⟨plan.global.baseEnergy, plan.global.baseTension, 0, 1, "default"⟩

/-- Spec-side reformulation: pair every section with an is-last flag. -/
def tagLast : List AnimationSection → List (AnimationSection × Bool)
  | [] => []
  | [s] => [(s, true)]
  | s :: s2 :: rest => (s, false) :: tagLast (s2 :: rest)

/-- Spec-side match predicate: startTime ≤ t < endTime, the last section
additionally matching t = endTime. -/
def sectionMatches (s : AnimationSection) (isLast : Bool) (t : ℚ) : Bool :=
  decide (s.startTime ≤ t) &&
    (decide (t < s.endTime) || (isLast && decide (t = s.endTime)))

/-- Spec-side resolver: first section in order whose match predicate
holds. -/
def specFindSection (l : List AnimationSection) (t : ℚ) :
    Option AnimationSection :=
  ((tagLast l).find? (fun p => sectionMatches p.1 p.2 t)).map Prod.fst

/- ## ParameterBlender (src/unnamed/part_011, makeRoughBall) -/

/-- aiPlanParams?.energy ?? 0.5 -/
def aiEnergyOf (p : Option AIParams) : ℚ := (p.map AIParams.energy).getD (1/2)

/-- aiPlanParams?.tension ?? 0.5 -/
def aiTensionOf (p : Option AIParams) : ℚ :=
  (p.map AIParams.tension).getD (1/2)

/-- audioWeight: 0.1 with a plan, 1.0 without. -/
def audioWeight (p : Option AIParams) : ℚ := if p.isSome then 1/10 else 1

/-- aiWeight: 0.9 with a plan, 0.0 without. -/
def aiWeight (p : Option AIParams) : ℚ := if p.isSome then 9/10 else 0

/-- blendedBass = bassFr * audioWeight + aiEnergy * aiWeight -/
def blendedBass (bassFr : ℚ) (p : Option AIParams) : ℚ :=
  bassFr * audioWeight p + aiEnergyOf p * aiWeight p

/-- blendedTreble = treFr * audioWeight + aiTension * aiWeight -/
def blendedTreble (treFr : ℚ) (p : Option AIParams) : ℚ :=
  treFr * audioWeight p + aiTensionOf p * aiWeight p

/- ## motionStyle time-scale lookup (src/unnamed/part_011) -/

/-- Whether the second list is a leading run of the first argument
applied at this position (helper for substring containment). -/
def charsLeadWith : List Char → List Char → Bool
  | [], _ => true
  | _ :: _, [] => false
  | a :: as, b :: bs => (a = b) && charsLeadWith as bs

/-- Substring containment on character lists. -/
def charsContain (sub : List Char) : List Char → Bool
  | [] => sub.isEmpty
  | c :: rest => charsLeadWith sub (c :: rest) || charsContain sub rest

/-- JS String.prototype.includes: case-sensitive substring test. -/
def jsIncludes (s sub : String) : Bool := charsContain sub.toList s.toList

/-- The deformation time scale selected from the motionStyle tag:
0.15 for tags containing "slow"/"breathing"/"calm", else 0.6 for tags
containing "fast"/"spikes"/"intense"/"激"/"激しい"/"激し", else 0.3. -/
def timeScaleOf (motionStyle : String) : ℚ :=
  if jsIncludes motionStyle "slow" || jsIncludes motionStyle "breathing"
      || jsIncludes motionStyle "calm" then 3/20
  else if jsIncludes motionStyle "fast" || jsIncludes motionStyle "spikes"
      || jsIncludes motionStyle "intense" || jsIncludes motionStyle "激"
      || jsIncludes motionStyle "激しい" || jsIncludes motionStyle "激し" then
    3/5
  else 3/10

/- ## Timeline recorders -/

structure AudioFrame where
  time : ℚ
  volumeRms : ℚ
  bass : ℚ
  treble : ℚ
deriving DecidableEq, Repr

/-- part_011 render loop: the gate time is the last recorded frame's
time, or -0.5 when no frame exists yet (so the first tick qualifies). -/
def lastFrameTime (frames : List AudioFrame) : ℚ :=
  match frames.getLast? with
  | some f => f.time
  | none => -(1/2)

/-- part_011 render loop: append a frame stamped with the current time
exactly when at least 0.5s has passed since the last recorded time. -/
def recordFrame (frames : List AudioFrame) (t vol bass treble : ℚ) :
    List AudioFrame :=
  if (1/2 : ℚ) ≤ t - lastFrameTime frames then
    frames ++ [⟨t, vol, bass, treble⟩]
  else frames

/-- A whole part_011 recording session over a list of tick inputs
(time, volumeRms, bass, treble). -/
def recordRun (ticks : List (ℚ × ℚ × ℚ × ℚ)) : List AudioFrame :=
  ticks.foldl (fun fs i => recordFrame fs i.1 i.2.1 i.2.2.1 i.2.2.2) []

/-- JS Math.round(x*10)/10 — frame times in AudioInputModule are stored
at 0.1s precision. -/
def round10 (t : ℚ) : ℚ := ((⌊t * 10 + 1/2⌋ : ℤ) : ℚ) / 10

/-- AudioInputModule recording state: the collected frames plus the
lastTimelineUpdate cursor (initialized to 0 on start). -/
structure RecState where
  timelineFrames : List AudioFrame
  lastTimelineUpdate : ℚ
deriving DecidableEq, Repr

def recInit : RecState := ⟨[], 0⟩

/-- AudioInputModule.startAnalysis: when currentTime has advanced at
least 0.5s past the cursor, append a frame (time rounded to 0.1s,
feature values clamped to [0,1], volume amplified by 2) and advance the
cursor to currentTime. -/
def recStep (s : RecState) (t vol bass treble : ℚ) : RecState :=
  if (1/2 : ℚ) ≤ t - s.lastTimelineUpdate then
    { timelineFrames := s.timelineFrames ++
        [⟨round10 t, min 1 (max 0 (vol * 2)), min 1 (max 0 bass),
          min 1 (max 0 treble)⟩],
      lastTimelineUpdate := t }
  else s

/-- A whole AudioInputModule session over a list of tick inputs. -/
def recRun (ticks : List (ℚ × ℚ × ℚ × ℚ)) : RecState :=
  ticks.foldl (fun s i => recStep s i.1 i.2.1 i.2.2.1 i.2.2.2) recInit

/- ## Deformer spike geometry (src/unnamed/part_011), over ℝ -/

/-- SPIKE_DIR before normalization:
(-sin(π/6), -cos(π/6), 0). -/
noncomputable def spikeDirRaw : ℝ × ℝ × ℝ :=
  (-(Real.sin (Real.pi / 6)), -(Real.cos (Real.pi / 6)), 0)

def dot3 (a b : ℝ × ℝ × ℝ) : ℝ :=
  a.1 * b.1 + a.2.1 * b.2.1 + a.2.2 * b.2.2

/-- Length of the raw spike direction (THREE.Vector3.normalize divides
by this). -/
noncomputable def spikeDirLen : ℝ := Real.sqrt (dot3 spikeDirRaw spikeDirRaw)

/-- SPIKE_DIR after .normalize(). -/
noncomputable def spikeDir : ℝ × ℝ × ℝ :=
  (spikeDirRaw.1 / spikeDirLen, spikeDirRaw.2.1 / spikeDirLen,
    spikeDirRaw.2.2 / spikeDirLen)

/-- alignment = Math.max(0, normal · SPIKE_DIR). -/
noncomputable def alignment (n : ℝ × ℝ × ℝ) : ℝ := max 0 (dot3 n spikeDir)

/-- The single-spike radius contribution of makeRoughBall: when
aiSpikeAmount > 0 the height is 2.5 * aiSpikeAmount, otherwise the
default height 2.5; either height is multiplied by alignment^300. -/
noncomputable def spikeBump (n : ℝ × ℝ × ℝ) (aiSpikeAmount : ℝ) : ℝ :=
  if 0 < aiSpikeAmount then (5/2 * aiSpikeAmount) * alignment n ^ (300 : ℕ)
  else (5/2) * alignment n ^ (300 : ℕ)

/-- Plan parameters as seen by the deformer, over ℝ. -/
structure AIParamsR where
  energy : ℝ
  tension : ℝ
  spikeAmount : ℝ
  noiseAmount : ℝ
  motionStyle : String

/-- aiPlanParams?.spikeAmount ?? 0 -/
noncomputable def aiSpikeAmountOf (plan : Option AIParamsR) : ℝ :=
  match plan with
  | some p => p.spikeAmount
  | none => 0

/-- The per-vertex radius of makeRoughBall accumulated before the
single-spike block, with the mouse inactive. noiseValue and spikeNoise
are the two samples of the external simplex noise3D field at this
vertex and frame. -/
noncomputable def distBeforeSpike (noiseValue spikeNoise : ℝ)
    (bassFr treFr : ℝ) (plan : Option AIParamsR) : ℝ :=
  let aiEnergy : ℝ := match plan with | some p => p.energy | none => 1/2
  let aiTension : ℝ := match plan with | some p => p.tension | none => 1/2
  let aiSpikeAmount := aiSpikeAmountOf plan
  let aiNoiseAmount : ℝ :=
    match plan with | some p => p.noiseAmount | none => 1
  let aiW : ℝ := if plan.isSome then 9/10 else 0
  let audioW : ℝ := if plan.isSome then 1/10 else 1
  let bBass := bassFr * audioW + aiEnergy * aiW
  let bTreble := treFr * audioW + aiTension * aiW
  let baseAmp : ℝ := if plan.isSome then 3 else 2
  let amp := baseAmp * (1 + aiNoiseAmount * (4/5))
  let offset : ℝ := 10
  let spikeDeformation := max 0 (spikeNoise - 3/10) * aiSpikeAmount * 4
  let bassMultiplier : ℝ := if plan.isSome then 3/2 else 4/5
  let trebleMultiplier : ℝ := if plan.isSome then 6/5 else 1
  offset + bBass * bassMultiplier +
    noiseValue * amp * bTreble * trebleMultiplier + spikeDeformation

/-- The full per-vertex radius of makeRoughBall with the mouse
inactive: the accumulated distance plus the single-spike bump
(distance += spikeHeight * spikeFactor). -/
noncomputable def vertexDistance (noiseValue spikeNoise : ℝ)
    (bassFr treFr : ℝ) (plan : Option AIParamsR) (n : ℝ × ℝ × ℝ) : ℝ :=
  distBeforeSpike noiseValue spikeNoise bassFr treFr plan +
    spikeBump n (aiSpikeAmountOf plan)

/- ## Theorems -/

/-- C2: transitionTo duration/easing classification: previous mood
"wild" with target mood "calm" gives actualDuration
clamp(requested * 1.5, 12, 20) with the slow smooth easing power1.out;
otherwise a target mood "wild" keeps the requested duration with the
snappier easing power2.out; any other transition keeps the requested
duration with the default easing power2.inOut. In particular, wild→calm
with requested 5 gives 12, and with requested 15 gives 20. -/
theorem moodTiming_rule :
    (∀ (prev tgt : Mood) (d : ℚ),
      moodTiming prev tgt d =
        if prev = Mood.wild ∧ tgt = Mood.calm then
          (clampQ 12 20 (d * (3/2)), "power1.out")
        else if tgt = Mood.wild then (d, "power2.out")
        else (d, "power2.inOut")) ∧
    moodTiming Mood.wild Mood.calm 5 = (12, "power1.out") ∧
    moodTiming Mood.wild Mood.calm 15 = (20, "power1.out") := by
  refine ⟨fun prev tgt d => rfl, ?_, ?_⟩ <;>
    norm_num [moodTiming, clampQ]

/-- C3: parameter blending: with an active plan the blended bass is
0.1 * audio bass + 0.9 * authored energy and the blended treble is
0.1 * audio treble + 0.9 * authored tension; with no plan the blended
bass (and treble) is exactly the audio value. -/
theorem blend_weight_switch :
    (∀ (b tr : ℚ) (p : AIParams),
      blendedBass b (some p) = (1/10) * b + (9/10) * p.energy ∧
      blendedTreble tr (some p) = (1/10) * tr + (9/10) * p.tension) ∧
    (∀ b : ℚ, blendedBass b none = b) ∧
    (∀ tr : ℚ, blendedTreble tr none = tr) := by
  refine ⟨fun b tr p => ⟨?_, ?_⟩, fun b => ?_, fun tr => ?_⟩ <;>
    simp [blendedBass, blendedTreble, audioWeight, aiWeight, aiEnergyOf,
      aiTensionOf] <;> ring

/-- C5: clampWorldTarget is idempotent, and for the same raw
bloomIntensity input the clamp bound is [0, 0.5] when renderMode is
"meshOnly" and [0, 1.2] otherwise. -/
theorem clampWorldTarget_idem_and_bloom :
    ∀ t : WorldTarget,
      clampWorldTarget (clampWorldTarget t) = clampWorldTarget t ∧
      (clampWorldTarget t).background.bloomIntensity =
        (if t.renderMode = RenderMode.meshOnly then
          clampQ 0 (1/2) t.background.bloomIntensity
        else clampQ 0 (6/5) t.background.bloomIntensity) := by
  intro t
  constructor
  · unfold clampWorldTarget
    by_cases hc : t.renderMode = RenderMode.meshOnly <;>
      simp [hc, clampQ_idem]
  · unfold clampWorldTarget
    by_cases hc : t.renderMode = RenderMode.meshOnly <;> simp [hc]

/-- C10: clampWorldTarget changes only transitionSeconds and the listed
numeric fields: version, renderMode, mood, reflection, bgStyle and all
four color strings pass through exactly, for arbitrary (unvalidated)
color strings. -/
theorem clampWorldTarget_frame :
    ∀ t : WorldTarget,
      (clampWorldTarget t).version = t.version ∧
      (clampWorldTarget t).renderMode = t.renderMode ∧
      (clampWorldTarget t).mood = t.mood ∧
      (clampWorldTarget t).reflection = t.reflection ∧
      (clampWorldTarget t).ferro.baseColor = t.ferro.baseColor ∧
      (clampWorldTarget t).ferro.accentColor = t.ferro.accentColor ∧
      (clampWorldTarget t).background.bgStyle = t.background.bgStyle ∧
      (clampWorldTarget t).background.bgGradientA =
        t.background.bgGradientA ∧
      (clampWorldTarget t).background.bgGradientB =
        t.background.bgGradientB :=
  fun _ => ⟨rfl, rfl, rfl, rfl, rfl, rfl, rfl, rfl, rfl⟩

lemma findSection_eq_spec (l : List AnimationSection) (t : ℚ) :
    findSection l t = specFindSection l t := by
  induction l with
  | nil => rfl
  | cons s rest ih =>
    cases rest with
    | nil =>
      simp only [findSection, specFindSection, tagLast, List.find?,
        sectionMatches]
      by_cases h1 : s.startTime ≤ t
      · by_cases h2 : t ≤ s.endTime
        · rcases lt_or_eq_of_le h2 with h3 | h3
          · simp [h1, h2, h3]
          · subst h3
            simp [h1]
        · have h3 : ¬ t < s.endTime := fun hl => h2 (le_of_lt hl)
          have h4 : ¬ t = s.endTime := fun he => h2 (le_of_eq he)
          simp [h1, h2, h3, h4]
      · simp [h1]
    | cons s2 rest2 =>
      by_cases h1 : s.startTime ≤ t <;> by_cases h2 : t < s.endTime <;>
        simp [findSection, specFindSection, tagLast, List.find?,
          sectionMatches, h1, h2, ih]

/-- Example plan for the boundary behavior: section A on [0,10),
section B on [10,20], B last, with distinguishable parameters. -/
def sampleSectionA : AnimationSection :=
  ⟨ "A", 0, 10, 1/10, 2/10, "a-style", 3/10, 4/10, []⟩

def sampleSectionB : AnimationSection :=
  ⟨ "B", 10, 20, 6/10, 7/10, "b-style", 1/2, 1/5, []⟩

def samplePlan : AnimationPlan :=
  ⟨ "mixed", ⟨9/10, 8/10, []⟩, [sampleSectionA, sampleSectionB]⟩

/-- C1: the intent resolver scans sections in order, a non-last section
matching on startTime ≤ t < endTime and the last section additionally on
t = endTime; it returns the first matching section's parameters, else
the plan's global baseEnergy/baseTension with spikeAmount 0,
noiseAmount 1.0 and motionStyle "default". For sections [0,10) "A" and
[10,20] "B" (B last): t=9.999 resolves to A, t=10 and t=20 to B, and
t=20.001 to the global fallback. -/
theorem intentResolver_section_rule :
    (∀ (l : List AnimationSection) (t : ℚ),
      findSection l t = specFindSection l t) ∧
    (∀ (plan : AnimationPlan) (t : ℚ) (s : AnimationSection),
      findSection plan.sections t = some s →
      resolveIntent plan t =
        ⟨s.energy, s.tension, s.spikeAmount, s.noiseAmount,
          s.motionStyle⟩) ∧
    (∀ (plan : AnimationPlan) (t : ℚ),
      findSection plan.sections t = none →
      resolveIntent plan t =
        ⟨plan.global.baseEnergy, plan.global.baseTension, 0, 1,
          "default"⟩) ∧
    resolveIntent samplePlan (9999/1000) =
      ⟨1/10, 2/10, 3/10, 4/10, "a-style"⟩ ∧
    resolveIntent samplePlan 10 = ⟨6/10, 7/10, 1/2, 1/5, "b-style"⟩ ∧
    resolveIntent samplePlan 20 = ⟨6/10, 7/10, 1/2, 1/5, "b-style"⟩ ∧
    resolveIntent samplePlan (20001/1000) = ⟨9/10, 8/10, 0, 1, "default"⟩ := by
  refine ⟨findSection_eq_spec, ?_, ?_, ?_, ?_, ?_, ?_⟩
  · intro plan t s h
    unfold resolveIntent
    rw [h]
  · intro plan t h
    unfold resolveIntent
    rw [h]
  all_goals
    norm_num [resolveIntent, findSection, samplePlan, sampleSectionA,
      sampleSectionB]

/-- Closed witness for the hypotheses of the C1 theorem: the some- and
none-branches applied to the sample plan at t = 10 and t = 20.001. -/
theorem intentResolver_section_rule_witness :
    resolveIntent samplePlan 10 = ⟨6/10, 7/10, 1/2, 1/5, "b-style"⟩ ∧
    resolveIntent samplePlan (20001/1000) = ⟨9/10, 8/10, 0, 1, "default"⟩ :=
  ⟨intentResolver_section_rule.2.1 samplePlan 10 sampleSectionB
      (by norm_num [findSection, samplePlan, sampleSectionA, sampleSectionB]),
    intentResolver_section_rule.2.2.1 samplePlan (20001/1000)
      (by norm_num [findSection, samplePlan, sampleSectionA, sampleSectionB])⟩

/-- The per-frame gap relation of the timeline invariant. -/
def frameGap (a b : AudioFrame) : Prop := a.time + 1/2 ≤ b.time

lemma recordFrame_chain (fs : List AudioFrame) (t v b tr : ℚ)
    (h : List.Chain' frameGap fs) :
    List.Chain' frameGap (recordFrame fs t v b tr) := by
  unfold recordFrame
  split
  · next hge =>
    rw [List.chain'_append]
    refine ⟨h, List.chain'_singleton _, ?_⟩
    intro x hx y hy
    simp only [List.head?_cons, Option.mem_def, Option.some.injEq] at hy
    subst hy
    have hlast : lastFrameTime fs = x.time := by
      unfold lastFrameTime
      rw [Option.mem_def.mp hx]
    unfold frameGap
    simp only
    linarith
  · exact h

lemma recordRun_chain_aux (ticks : List (ℚ × ℚ × ℚ × ℚ))
    (fs : List AudioFrame) (h : List.Chain' frameGap fs) :
    List.Chain' frameGap
      (ticks.foldl (fun fs i => recordFrame fs i.1 i.2.1 i.2.2.1 i.2.2.2)
        fs) := by
  induction ticks generalizing fs with
  | nil => exact h
  | cons i rest ih =>
    exact ih _ (recordFrame_chain fs i.1 i.2.1 i.2.2.1 i.2.2.2 h)

lemma round10_shift (c t : ℚ) (h : 1/2 ≤ t - c) :
    round10 c + 1/2 ≤ round10 t := by
  unfold round10
  have h5 : (⌊c * 10 + 1/2⌋ + 5 : ℤ) ≤ ⌊t * 10 + 1/2⌋ := by
    rw [show (⌊c * 10 + 1/2⌋ + 5 : ℤ) = ⌊c * 10 + 1/2 + ((5 : ℤ) : ℚ)⌋ from
      (Int.floor_add_int _ _).symm]
    apply Int.floor_mono
    push_cast
    linarith
  have h6 : ((⌊c * 10 + 1/2⌋ + 5 : ℤ) : ℚ) ≤ ((⌊t * 10 + 1/2⌋ : ℤ) : ℚ) := by
    exact_mod_cast h5
  push_cast at h6
  linarith

/-- Invariant of the AudioInputModule recorder: frames are spaced ≥ 0.5s
apart and the last recorded frame carries the rounded cursor time. -/
def recInv (s : RecState) : Prop :=
  List.Chain' frameGap s.timelineFrames ∧
  ∀ f ∈ s.timelineFrames.getLast?, f.time = round10 s.lastTimelineUpdate

lemma recStep_inv (s : RecState) (t v b tr : ℚ) (h : recInv s) :
    recInv (recStep s t v b tr) := by
  unfold recStep
  split
  · next hge =>
    constructor
    · rw [List.chain'_append]
      refine ⟨h.1, List.chain'_singleton _, ?_⟩
      intro x hx y hy
      simp only [List.head?_cons, Option.mem_def, Option.some.injEq] at hy
      subst hy
      have hx' := h.2 x hx
      have hshift := round10_shift s.lastTimelineUpdate t hge
      unfold frameGap
      simp only
      linarith
    · intro f hf
      simp only [List.getLast?_concat, Option.mem_def,
        Option.some.injEq] at hf
      subst hf
      rfl
  · exact h

lemma recRun_inv_aux (ticks : List (ℚ × ℚ × ℚ × ℚ)) (s : RecState)
    (h : recInv s) :
    recInv (ticks.foldl (fun s i => recStep s i.1 i.2.1 i.2.2.1 i.2.2.2) s) := by
  induction ticks generalizing s with
  | nil => exact h
  | cons i rest ih =>
    exact ih _ (recStep_inv s i.1 i.2.1 i.2.2.1 i.2.2.2 h)

/-- C9: in every recording session, recorded frame times are strictly
increasing with consecutive gaps of at least 0.5 seconds — both for the
render-loop recorder of part_011 and for AudioInputModule of part_005 —
and the render-loop recorder appends a frame exactly when the current
time minus the last recorded time is at least 0.5, advancing the cursor
(the last recorded time) to the current time. -/
theorem timeline_monotonic :
    (∀ ticks : List (ℚ × ℚ × ℚ × ℚ),
      List.Chain' (fun a b => a.time < b.time ∧ a.time + 1/2 ≤ b.time)
        (recordRun ticks)) ∧
    (∀ ticks : List (ℚ × ℚ × ℚ × ℚ),
      List.Chain' (fun a b => a.time < b.time ∧ a.time + 1/2 ≤ b.time)
        (recRun ticks).timelineFrames) ∧
    (∀ (fs : List AudioFrame) (t v b tr : ℚ),
      ¬ (1/2 : ℚ) ≤ t - lastFrameTime fs → recordFrame fs t v b tr = fs) ∧
    (∀ (fs : List AudioFrame) (t v b tr : ℚ),
      (1/2 : ℚ) ≤ t - lastFrameTime fs →
        recordFrame fs t v b tr = fs ++ [⟨t, v, b, tr⟩]) := by
  refine ⟨?_, ?_, ?_, ?_⟩
  · intro ticks
    have h := recordRun_chain_aux ticks [] List.chain'_nil
    exact h.imp (fun a b hg => ⟨by unfold frameGap at hg; linarith,
      by unfold frameGap at hg; linarith⟩)
  · intro ticks
    have h := (recRun_inv_aux ticks recInit
      ⟨List.chain'_nil, by intro f hf; simp [recInit] at hf⟩).1
    exact h.imp (fun a b hg => ⟨by unfold frameGap at hg; linarith,
      by unfold frameGap at hg; linarith⟩)
  · intro fs t v b tr hlt
    unfold recordFrame
    rw [if_neg hlt]
  · intro fs t v b tr hge
    unfold recordFrame
    rw [if_pos hge]

/-- Closed witness for the C9 theorem's hypotheses: the first tick at
t = 0 qualifies (cursor starts at -0.5), a tick 0.25s later does not. -/
theorem timeline_monotonic_witness :
    recordFrame [] 0 1 1 1 = [⟨0, 1, 1, 1⟩] ∧
    recordFrame [⟨0, 1, 1, 1⟩] (1/4) 1 1 1 = [⟨0, 1, 1, 1⟩] :=
  ⟨timeline_monotonic.2.2.2 [] 0 1 1 1 (by norm_num [lastFrameTime]),
    timeline_monotonic.2.2.1 [⟨0, 1, 1, 1⟩] (1/4) 1 1 1
      (by norm_num [lastFrameTime])⟩

lemma colorTween_key {k a b : String} {d : ℚ} {e : String} {tw : Tween}
    (h : colorTween k a b d e = some tw) : tw.key = k := by
  unfold colorTween at h
  split at h
  · simp at h
  · split at h
    · injection h with h2
      subst h2
      rfl
    · simp at h

lemma colorTween_target {k a b : String} {d : ℚ} {e : String} {tw : Tween}
    (h : colorTween k a b d e = some tw) :
    ∃ r g bl, hexToRgb b = some (r, g, bl) ∧
      tw.target = TweenTarget.color r g bl := by
  unfold colorTween at h
  split at h
  · simp at h
  · split at h
    · next r g bl heq1 heq2 =>
      injection h with h2
      subst h2
      exact ⟨r, g, bl, heq2, rfl⟩
    · simp at h

lemma accentTween_key {k : String} {st : WorldState} {fd : ℚ} {e : String}
    {oc : Option String} {tw : Tween}
    (h : accentTween k st fd e oc = some tw) : tw.key = k := by
  cases oc with
  | none => simp [accentTween] at h
  | some c =>
    simp only [accentTween] at h
    split at h
    · simp at h
    · exact colorTween_key h

lemma accentTween_target {k : String} {st : WorldState} {fd : ℚ}
    {e : String} {oc : Option String} {tw : Tween}
    (h : accentTween k st fd e oc = some tw) :
    ∃ c, oc = some c ∧ ∃ r g bl, hexToRgb c = some (r, g, bl) ∧
      tw.target = TweenTarget.color r g bl := by
  cases oc with
  | none => simp [accentTween] at h
  | some c =>
    simp only [accentTween] at h
    split at h
    · simp at h
    · exact ⟨c, rfl, colorTween_target h⟩

/-- The numeric target value a given field path should animate toward,
read off the WorldTarget. -/
def numTargetOf (t : WorldTarget) (k : String) : Option ℚ :=
  if k = "ferro.saturation" then some t.ferro.saturation
  else if k = "ferro.roughness" then some t.ferro.roughness
  else if k = "ferro.metalness" then some t.ferro.metalness
  else if k = "ferro.envIntensity" then some t.ferro.envIntensity
  else if k = "ferro.deformStrength" then some t.ferro.deformStrength
  else if k = "ferro.deformScale" then some t.ferro.deformScale
  else if k = "ferro.deformSpeed" then some t.ferro.deformSpeed
  else if k = "ferro.swayAmount" then some t.ferro.swayAmount
  else if k = "ferro.swaySpeed" then some t.ferro.swaySpeed
  else if k = "ferro.pulseAmount" then some t.ferro.pulseAmount
  else if k = "ferro.gravityStrength" then some t.ferro.gravityStrength
  else if k = "ferro.attractStrength" then some t.ferro.attractStrength
  else if k = "background.bgNoiseAmount" then
    some t.background.bgNoiseAmount
  else if k = "background.bgFogDensity" then some t.background.bgFogDensity
  else if k = "background.bgVignette" then some t.background.bgVignette
  else if k = "background.bgMotion" then some t.background.bgMotion
  else if k = "background.bloomIntensity" then
    some t.background.bloomIntensity
  else if k = "background.grainAmount" then some t.background.grainAmount
  else none

/-- The color string a given color field path should animate toward. -/
def colorSrcOf (t : WorldTarget) (k : String) : Option String :=
  if k = "ferro.baseColor" then some t.ferro.baseColor
  else if k = "ferro.accentColor" then t.ferro.accentColor
  else if k = "background.bgGradientA" then some t.background.bgGradientA
  else if k = "background.bgGradientB" then some t.background.bgGradientB
  else none

/-- A tween targets the given WorldTarget's values: its key is a known
field path whose numeric target it carries, or a color path whose
parsed color it carries. -/
def tweenTargets (t : WorldTarget) (tw : Tween) : Prop :=
  (∃ v, numTargetOf t tw.key = some v ∧ tw.target = TweenTarget.num v) ∨
  (∃ s r g b, colorSrcOf t tw.key = some s ∧ hexToRgb s = some (r, g, b) ∧
    tw.target = TweenTarget.color r g b)

/-- The six numeric background field paths. -/
def bgNumericKeys : List String :=
  [ "background.bgNoiseAmount", "background.bgFogDensity",
    "background.bgVignette", "background.bgMotion",
    "background.bloomIntensity", "background.grainAmount" ]

lemma ferro_targets {st : WorldState} {t : WorldTarget} {d : ℚ}
    {e : String} {tw : Tween}
    (h : tw ∈ transitionFerroParams st t.ferro d e) : tweenTargets t tw := by
  unfold transitionFerroParams at h
  simp only [List.mem_append, Option.mem_toList, Option.mem_def,
    List.mem_cons, List.not_mem_nil, or_false] at h
  rcases h with h | h | h
  · have hk := colorTween_key h
    obtain ⟨r, g, bl, hx, ht⟩ := colorTween_target h
    exact Or.inr ⟨t.ferro.baseColor, r, g, bl,
      by rw [hk]; simp [colorSrcOf], hx, ht⟩
  · have hk := accentTween_key h
    obtain ⟨c, hc, r, g, bl, hx, ht⟩ := accentTween_target h
    exact Or.inr ⟨c, r, g, bl, by rw [hk]; simp [colorSrcOf, hc], hx, ht⟩
  · rcases h with rfl | rfl | rfl | rfl | rfl | rfl | rfl | rfl | rfl |
      rfl | rfl | rfl <;>
      exact Or.inl ⟨_, by simp [numTargetOf], rfl⟩

lemma bg_targets {st : WorldState} {t : WorldTarget} {d : ℚ}
    {e : String} {tw : Tween}
    (h : tw ∈ transitionBackgroundParams st t.background d e) :
    tweenTargets t tw := by
  unfold transitionBackgroundParams at h
  simp only [List.mem_append, Option.mem_toList, Option.mem_def,
    List.mem_cons, List.not_mem_nil, or_false] at h
  rcases h with h | h | h
  · have hk := colorTween_key h
    obtain ⟨r, g, bl, hx, ht⟩ := colorTween_target h
    exact Or.inr ⟨t.background.bgGradientA, r, g, bl,
      by rw [hk]; simp [colorSrcOf], hx, ht⟩
  · have hk := colorTween_key h
    obtain ⟨r, g, bl, hx, ht⟩ := colorTween_target h
    exact Or.inr ⟨t.background.bgGradientB, r, g, bl,
      by rw [hk]; simp [colorSrcOf], hx, ht⟩
  · rcases h with rfl | rfl | rfl | rfl | rfl | rfl <;>
      exact Or.inl ⟨_, by simp [numTargetOf], rfl⟩

lemma ferro_key_not_bg {st : WorldState} {tf : FerroParams} {d : ℚ}
    {e : String} {tw : Tween}
    (h : tw ∈ transitionFerroParams st tf d e) :
    tw.key ∉ bgNumericKeys := by
  unfold transitionFerroParams at h
  simp only [List.mem_append, Option.mem_toList, Option.mem_def,
    List.mem_cons, List.not_mem_nil, or_false] at h
  rcases h with h | h | h
  · rw [colorTween_key h]
    simp [bgNumericKeys]
  · rw [accentTween_key h]
    simp [bgNumericKeys]
  · rcases h with rfl | rfl | rfl | rfl | rfl | rfl | rfl | rfl | rfl |
      rfl | rfl | rfl <;>
      simp [bgNumericKeys]

lemma bg_duration {st : WorldState} {tb : BackgroundParams} {d : ℚ}
    {e : String} {tw : Tween}
    (h : tw ∈ transitionBackgroundParams st tb d e)
    (hmem : tw.key ∈ bgNumericKeys) :
    tw.duration =
      if tw.key = "background.bgFogDensity" ∨
        tw.key = "background.bloomIntensity" then max 8 d else d := by
  unfold transitionBackgroundParams at h
  simp only [List.mem_append, Option.mem_toList, Option.mem_def,
    List.mem_cons, List.not_mem_nil, or_false] at h
  rcases h with h | h | h
  · rw [colorTween_key h] at hmem
    simp [bgNumericKeys] at hmem
  · rw [colorTween_key h] at hmem
    simp [bgNumericKeys] at hmem
  · rcases h with rfl | rfl | rfl | rfl | rfl | rfl <;> simp

lemma bg_keys_present (st : WorldState) (tb : BackgroundParams) (d : ℚ)
    (e : String) :
    ∀ k ∈ bgNumericKeys,
      k ∈ (transitionBackgroundParams st tb d e).map Tween.key := by
  intro k hk
  fin_cases hk <;> simp [transitionBackgroundParams]

lemma mapSet_mem {m : List Tween} {tw x : Tween} (h : x ∈ mapSet m tw) :
    x ∈ m ∨ x = tw := by
  induction m with
  | nil =>
    simp only [mapSet, List.mem_singleton] at h
    exact Or.inr h
  | cons a rest ih =>
    simp only [mapSet] at h
    split at h
    · rcases List.mem_cons.mp h with h1 | h1
      · exact Or.inr h1
      · exact Or.inl (List.mem_cons_of_mem a h1)
    · rcases List.mem_cons.mp h with h1 | h1
      · exact Or.inl (h1 ▸ List.mem_cons_self a rest)
      · rcases ih h1 with h2 | h2
        · exact Or.inl (List.mem_cons_of_mem a h2)
        · exact Or.inr h2

lemma mapSet_keys (m : List Tween) (tw : Tween) :
    (mapSet m tw).map Tween.key =
      if tw.key ∈ m.map Tween.key then m.map Tween.key
      else m.map Tween.key ++ [tw.key] := by
  induction m with
  | nil => simp [mapSet]
  | cons a rest ih =>
    simp only [mapSet]
    by_cases hk : a.key = tw.key
    · rw [if_pos hk]
      simp [hk]
    · rw [if_neg hk]
      simp only [List.map_cons, ih]
      by_cases h2 : tw.key ∈ rest.map Tween.key
      · simp [h2, Ne.symm hk]
      · simp [h2, Ne.symm hk]

lemma mapSet_keys_nodup {m : List Tween} (tw : Tween)
    (h : (m.map Tween.key).Nodup) :
    ((mapSet m tw).map Tween.key).Nodup := by
  rw [mapSet_keys]
  split
  · exact h
  · next h2 => simp [List.nodup_append, h, h2]

lemma foldl_mapSet_nodup (l : List Tween) (m : List Tween)
    (h : (m.map Tween.key).Nodup) :
    ((l.foldl mapSet m).map Tween.key).Nodup := by
  induction l generalizing m with
  | nil => exact h
  | cons a rest ih => exact ih _ (mapSet_keys_nodup a h)

lemma foldl_mapSet_mem {l m : List Tween} {x : Tween}
    (h : x ∈ l.foldl mapSet m) : x ∈ m ∨ x ∈ l := by
  induction l generalizing m with
  | nil => exact Or.inl h
  | cons a rest ih =>
    rcases ih h with h1 | h1
    · rcases mapSet_mem h1 with h2 | h2
      · exact Or.inl h2
      · exact Or.inr (h2 ▸ List.mem_cons_self a rest)
    · exact Or.inr (List.mem_cons_of_mem a h1)

lemma mapSet_keys_mem (m : List Tween) (tw : Tween) (k : String) :
    k ∈ (mapSet m tw).map Tween.key ↔
      k ∈ m.map Tween.key ∨ k = tw.key := by
  rw [mapSet_keys]
  split
  · next h =>
    constructor
    · exact Or.inl
    · rintro (h1 | h1)
      · exact h1
      · exact h1 ▸ h
  · simp

lemma foldl_mapSet_keys_mem (l m : List Tween) (k : String)
    (h : k ∈ m.map Tween.key ∨ k ∈ l.map Tween.key) :
    k ∈ (l.foldl mapSet m).map Tween.key := by
  induction l generalizing m with
  | nil =>
    rcases h with h1 | h1
    · exact h1
    · simp at h1
  | cons a rest ih =>
    apply ih
    rcases h with h1 | h1
    · exact Or.inl ((mapSet_keys_mem m a k).mpr (Or.inl h1))
    · rw [List.map_cons] at h1
      rcases List.mem_cons.mp h1 with h2 | h2
      · exact Or.inl ((mapSet_keys_mem m a k).mpr (Or.inr h2))
      · exact Or.inr h2

lemma transitionTo_activeTweens (s : EngineState) (t : WorldTarget) :
    (transitionTo s t).activeTweens =
      (transitionFerroParams s.current t.ferro
        (moodTiming s.current.mood t.mood t.transitionSeconds).1
        (moodTiming s.current.mood t.mood t.transitionSeconds).2 ++
      transitionBackgroundParams s.current t.background
        ((moodTiming s.current.mood t.mood t.transitionSeconds).1 * (6/5))
        (moodTiming s.current.mood t.mood t.transitionSeconds).2).foldl
        mapSet [] := rfl

/-- Concrete engine/target values for witnesses: identical colors (so
no color tween is registered), calm mood, requested duration 5. -/
def sampleFerro : FerroParams :=
  ⟨ "#ff0000", none, 0, 0, 0, 0, 0, 1, 0, 0, 0, 0, 0, 0⟩

def sampleBackground : BackgroundParams :=
  ⟨BgStyle.softGradient, "#000000", "#000000", 0, 0, 0, 0, 0, 0⟩

def sampleState : WorldState :=
  ⟨RenderMode.full, Mood.calm, sampleFerro, sampleBackground⟩

def sampleEngine : EngineState := ⟨sampleState, []⟩

def sampleTarget : WorldTarget :=
  ⟨ "v2", RenderMode.full, Mood.calm, 5, none, sampleFerro,
    sampleBackground⟩

/-- C6: after two transitionTo calls in quick succession the active
tween map holds exactly one interpolation per field path (keys are
pairwise distinct) and every one of them targets only the second call's
values. -/
theorem transitionTo_cancellation :
    ∀ (s : EngineState) (t1 t2 : WorldTarget),
      (((transitionTo (transitionTo s t1) t2).activeTweens.map
        Tween.key).Nodup) ∧
      ∀ tw ∈ (transitionTo (transitionTo s t1) t2).activeTweens,
        tweenTargets t2 tw := by
  intro s t1 t2
  constructor
  · rw [transitionTo_activeTweens]
    exact foldl_mapSet_nodup _ [] (by simp)
  · intro tw htw
    rw [transitionTo_activeTweens] at htw
    rcases foldl_mapSet_mem htw with h1 | h1
    · simp at h1
    · rcases List.mem_append.mp h1 with h2 | h2
      · exact ferro_targets h2
      · exact bg_targets h2

/-- Closed witness for the C6 theorem: the saturation tween of the
second call is active and targets the second call's value. -/
theorem transitionTo_cancellation_witness :
    ((⟨ "ferro.saturation", TweenTarget.num 0, 5, "power2.inOut"⟩ :
      Tween) ∈
      (transitionTo (transitionTo sampleEngine sampleTarget)
        sampleTarget).activeTweens) ∧
    tweenTargets sampleTarget
      ⟨ "ferro.saturation", TweenTarget.num 0, 5, "power2.inOut"⟩ := by
  have hm : (⟨ "ferro.saturation", TweenTarget.num 0, 5,
      "power2.inOut"⟩ : Tween) ∈
      (transitionTo (transitionTo sampleEngine sampleTarget)
        sampleTarget).activeTweens := by
    rw [transitionTo_activeTweens]
    simp +decide [transitionTo, moodTiming, transitionFerroParams,
      transitionBackgroundParams, colorTween, accentTween, sampleEngine,
      sampleState, sampleFerro, sampleBackground, sampleTarget, mapSet,
      List.foldl]
    try norm_num [max_eq_left]
  exact ⟨hm,
    (transitionTo_cancellation sampleEngine sampleTarget sampleTarget).2
      _ hm⟩

/-- C7: every background numeric field is animated over
backgroundDuration = actualDuration * 1.2, except bgFogDensity and
bloomIntensity which use max(8, backgroundDuration); all six background
numeric fields get a tween. In particular a requested duration of 5
(calm to calm) gives background duration 6 and fog/bloom duration 8. -/
theorem background_lag :
    (∀ (s : EngineState) (t : WorldTarget),
      (∀ tw ∈ (transitionTo s t).activeTweens,
        tw.key ∈ bgNumericKeys →
          tw.duration =
            (if tw.key = "background.bgFogDensity" ∨
              tw.key = "background.bloomIntensity" then
              max 8 ((moodTiming s.current.mood t.mood
                t.transitionSeconds).1 * (6/5))
            else (moodTiming s.current.mood t.mood
              t.transitionSeconds).1 * (6/5))) ∧
      (∀ k ∈ bgNumericKeys,
        k ∈ (transitionTo s t).activeTweens.map Tween.key)) ∧
    ((transitionTo sampleEngine sampleTarget).activeTweens.filterMap
      (fun tw => if tw.key = "background.bgNoiseAmount" then
        some tw.duration else none)) = [6] ∧
    ((transitionTo sampleEngine sampleTarget).activeTweens.filterMap
      (fun tw => if tw.key = "background.bgFogDensity" then
        some tw.duration else none)) = [8] ∧
    ((transitionTo sampleEngine sampleTarget).activeTweens.filterMap
      (fun tw => if tw.key = "background.bloomIntensity" then
        some tw.duration else none)) = [8] := by
  refine ⟨fun s t => ⟨?_, ?_⟩, ?_, ?_, ?_⟩
  · intro tw htw hmem
    rw [transitionTo_activeTweens] at htw
    rcases foldl_mapSet_mem htw with h1 | h1
    · simp at h1
    · rcases List.mem_append.mp h1 with h2 | h2
      · exact absurd hmem (ferro_key_not_bg h2)
      · exact bg_duration h2 hmem
  · intro k hk
    rw [transitionTo_activeTweens]
    apply foldl_mapSet_keys_mem
    right
    rw [List.map_append]
    exact List.mem_append_right _ (bg_keys_present _ _ _ _ k hk)
  all_goals
    rw [transitionTo_activeTweens]
    simp +decide [transitionTo, moodTiming, transitionFerroParams,
      transitionBackgroundParams, colorTween, accentTween, sampleEngine,
      sampleState, sampleFerro, sampleBackground, sampleTarget, mapSet,
      List.foldl]
    try norm_num [max_eq_left]

/-- Closed witness for the C7 theorem: the fog tween of the sample
transition is active with duration 8 = max(8, 5 * 1.2). -/
theorem background_lag_witness :
    ((⟨ "background.bgFogDensity", TweenTarget.num 0, 8,
      "power2.inOut"⟩ : Tween) ∈
      (transitionTo sampleEngine sampleTarget).activeTweens) ∧
    (⟨ "background.bgFogDensity", TweenTarget.num 0, 8,
      "power2.inOut"⟩ : Tween).duration =
      (if (⟨ "background.bgFogDensity", TweenTarget.num 0, 8,
          "power2.inOut"⟩ : Tween).key = "background.bgFogDensity" ∨
        (⟨ "background.bgFogDensity", TweenTarget.num 0, 8,
          "power2.inOut"⟩ : Tween).key = "background.bloomIntensity" then
        max 8 ((moodTiming sampleEngine.current.mood sampleTarget.mood
          sampleTarget.transitionSeconds).1 * (6/5))
      else (moodTiming sampleEngine.current.mood sampleTarget.mood
        sampleTarget.transitionSeconds).1 * (6/5)) := by
  have hm : (⟨ "background.bgFogDensity", TweenTarget.num 0, 8,
      "power2.inOut"⟩ : Tween) ∈
      (transitionTo sampleEngine sampleTarget).activeTweens := by
    rw [transitionTo_activeTweens]
    simp +decide [transitionTo, moodTiming, transitionFerroParams,
      transitionBackgroundParams, colorTween, accentTween, sampleEngine,
      sampleState, sampleFerro, sampleBackground, sampleTarget, mapSet,
      List.foldl]
    try norm_num [max_eq_left]
  exact ⟨hm, (background_lag.1 sampleEngine sampleTarget).1 _ hm
    (by simp [bgNumericKeys])⟩

lemma spikeDirLen_eq_one : spikeDirLen = 1 := by
  unfold spikeDirLen spikeDirRaw dot3
  simp only
  rw [Real.sin_pi_div_six, Real.cos_pi_div_six]
  have h3 : Real.sqrt 3 * Real.sqrt 3 = 3 := Real.mul_self_sqrt (by norm_num)
  have h1 : -(1/2 : ℝ) * -(1/2) + -(Real.sqrt 3 / 2) * -(Real.sqrt 3 / 2)
      + 0 * 0 = 1 := by nlinarith [h3]
  rw [h1, Real.sqrt_one]

lemma dot3_spikeDir_self : dot3 spikeDir spikeDir = 1 := by
  unfold spikeDir dot3
  rw [spikeDirLen_eq_one]
  simp only [div_one]
  unfold spikeDirRaw
  simp only
  rw [Real.sin_pi_div_six, Real.cos_pi_div_six]
  have h3 : Real.sqrt 3 * Real.sqrt 3 = 3 := Real.mul_self_sqrt (by norm_num)
  nlinarith [h3]

lemma alignment_spikeDir : alignment spikeDir = 1 := by
  unfold alignment
  rw [dot3_spikeDir_self]
  norm_num

/-- C4 counterexample: at the spike pole (vertex normal equal to
SPIKE_DIR, alignment 1) an active plan with spikeAmount 0.5 produces a
bump of 1.25, strictly below the no-plan baseline bump of 2.5 — the
authored spikeAmount scales the bump height multiplicatively, replacing
the baseline, rather than additively amplifying it on top of the
baseline. -/
theorem spike_not_additive_counterexample :
    spikeBump spikeDir (1/2) = 5/4 ∧ spikeBump spikeDir 0 = 5/2 ∧
    spikeBump spikeDir (1/2) < spikeBump spikeDir 0 := by
  have ha := alignment_spikeDir
  refine ⟨?_, ?_, ?_⟩ <;>
    · unfold spikeBump
      rw [ha]
      norm_num

/-- C4 amended: every vertex radius includes the fixed-direction bump
height * alignment^300, alignment = max(0, n · SPIKE_DIR); with no plan
(spikeAmount 0) the bump is present at the baseline height 2.5; with a
plan active and spikeAmount > 0 the height is 2.5 * spikeAmount — a
multiplicative scaling that replaces the baseline (not an additive
amplification on top of it). -/
theorem spike_bump_rule :
    (∀ (noiseValue spikeNoise bassFr treFr : ℝ) (plan : Option AIParamsR)
      (n : ℝ × ℝ × ℝ),
      vertexDistance noiseValue spikeNoise bassFr treFr plan n =
        distBeforeSpike noiseValue spikeNoise bassFr treFr plan +
          spikeBump n (aiSpikeAmountOf plan)) ∧
    aiSpikeAmountOf none = 0 ∧
    (∀ n : ℝ × ℝ × ℝ, alignment n = max 0 (dot3 n spikeDir)) ∧
    (∀ n : ℝ × ℝ × ℝ, spikeBump n 0 = 5/2 * alignment n ^ (300 : ℕ)) ∧
    (∀ (n : ℝ × ℝ × ℝ) (s : ℝ), 0 < s →
      spikeBump n s = (5/2 * s) * alignment n ^ (300 : ℕ)) := by
  refine ⟨fun _ _ _ _ _ _ => rfl, rfl, fun _ => rfl, ?_, ?_⟩
  · intro n
    unfold spikeBump
    norm_num
  · intro n s hs
    unfold spikeBump
    rw [if_pos hs]

/-- Closed witness for the C4 amended theorem: at the spike pole with
spikeAmount 1 the bump is 2.5 * 1 * 1^300. -/
theorem spike_bump_rule_witness :
    spikeBump spikeDir 1 = (5/2 * 1) * alignment spikeDir ^ (300 : ℕ) :=
  spike_bump_rule.2.2.2.2 spikeDir 1 (by norm_num)

/-- C8 counterexample: the motionStyle lookup is case-sensitive
substring matching, so the case variant "Slow" of the slow tag falls in
the default bucket 0.3 while "slow" falls in 0.15 — case variants of
the same tag do not resolve to the same bucket. -/
theorem timeScale_case_counterexample :
    timeScaleOf "slow" = 3/20 ∧ timeScaleOf "Slow" = 3/10 ∧
    timeScaleOf "slow" ≠ timeScaleOf "Slow" := by
  refine ⟨?_, ?_, ?_⟩ <;>
    · simp +decide [timeScaleOf]
      try norm_num

/-- C8 amended: the deformation time scale is a case-sensitive substring
lookup on the motionStyle tag: tags containing "slow"/"breathing"/"calm"
map to 0.15, otherwise tags containing "fast"/"spikes"/"intense" (or the
Japanese 激 variants) map to 0.6, any other tag to the default 0.3; a
tag containing "slow" always resolves to 0.15, and every tag resolves to
one of the three buckets — but case variants of a tag are not guaranteed
the same bucket. -/
theorem timeScale_lookup :
    timeScaleOf "slow" = 3/20 ∧ timeScaleOf "breathing" = 3/20 ∧
    timeScaleOf "calm" = 3/20 ∧ timeScaleOf "fast" = 3/5 ∧
    timeScaleOf "spikes" = 3/5 ∧ timeScaleOf "intense" = 3/5 ∧
    timeScaleOf "激しい" = 3/5 ∧ timeScaleOf "default" = 3/10 ∧
    (∀ tag : String, jsIncludes tag "slow" = true →
      timeScaleOf tag = 3/20) ∧
    (∀ tag : String, timeScaleOf tag = 3/20 ∨ timeScaleOf tag = 3/10 ∨
      timeScaleOf tag = 3/5) := by
  refine ⟨by simp +decide [timeScaleOf], by simp +decide [timeScaleOf],
    by simp +decide [timeScaleOf], by simp +decide [timeScaleOf],
    by simp +decide [timeScaleOf], by simp +decide [timeScaleOf],
    by simp +decide [timeScaleOf], by simp +decide [timeScaleOf],
    ?_, ?_⟩
  · intro tag h
    unfold timeScaleOf
    rw [h]
    simp
  · intro tag
    unfold timeScaleOf
    split_ifs <;> simp

/-- Closed witness for the C8 amended theorem: a tag containing "slow"
as a substring resolves to the slow bucket. -/
theorem timeScale_lookup_witness :
    timeScaleOf "slow and steady" = 3/20 :=
  timeScale_lookup.2.2.2.2.2.2.2.2.1 "slow and steady" (by decide)

end Ferro
